import Mathlib

/-!
Verification of the shared-buffer producer/consumer program
(`src/studentsource2024/main.c`).

The buffer is a singly linked list with explicit `head` and `tail`
pointers, guarded by a mutex and a condition variable.  We embed the
heap shallowly: nodes live in a list `mem` (the allocation order gives
the addresses), and `head`, `tail` and the per-node `next` fields are
`Option Nat` addresses into `mem`.  `free` of a node is modelled by
abandoning it in `mem` (freed memory is never read again under the
representation invariant).  `malloc` outcomes are supplied by a boolean
oracle.  The mutex and condition variable serialize the operations, so
each whole operation is one atomic step of the sequential model; the
blocking wait inside `sbuffer_remove` is modelled separately as a
transition system (`rm_step`).
-/

set_option maxRecDepth 4000

/-- Modelled from the spec: `sensor_data_t` is declared in `config.h`,
which is not part of the sources; the spec gives
`Record: {id: integer, value: float, timestamp: integer}`.  The C
`double` value is modelled at hundredths precision: `value` counts
hundredths, so `1050` stands for `10.50`. -/
structure sensor_data_t where
  id : Nat
  value : Int
  ts : Int
deriving DecidableEq, Repr, Inhabited

/-- Modelled from the spec: the result codes `SBUFFER_SUCCESS`,
`SBUFFER_FAILURE` and `SBUFFER_NO_DATA` are declared in `sbuffer.h`,
which is not part of the sources.  The code only ever compares against
the three names, so they are embedded as an inductive type. -/
inductive sbuffer_result where
  | SBUFFER_SUCCESS
  | SBUFFER_FAILURE
  | SBUFFER_NO_DATA
deriving DecidableEq, Repr

open sbuffer_result

/-- `sbuffer_node_t`: a node of the linked buffer, `next` pointer plus
the stored record. -/
structure sbuffer_node_t where
  next : Option Nat
  data : sensor_data_t
deriving DecidableEq, Repr

/-- `struct sbuffer`: the heap of allocated nodes (`mem`, address =
index) together with the `head` and `tail` pointers.  The mutex and
condition variable carry no data and are elided. -/
structure sbuffer_t where
  mem : List sbuffer_node_t
  head : Option Nat
  tail : Option Nat
deriving DecidableEq, Repr

/-- `sbuffer_init`: allocates the buffer (oracle `allocOk`) and sets
`head` and `tail` to `NULL`.  Mutex/condvar initialization is assumed
to succeed. -/
def sbuffer_init (allocOk : Bool) : sbuffer_result × Option sbuffer_t :=
  if allocOk then (SBUFFER_SUCCESS, some ⟨[], none, none⟩)
  else (SBUFFER_FAILURE, none)

/-- Write `some a` into the `next` field of the node at address `t`
(the C `buffer->tail->next = dummy`). -/
def setNext (mem : List sbuffer_node_t) (t a : Nat) : List sbuffer_node_t :=
  match mem.get? t with
  | some node => mem.set t ⟨some a, node.data⟩
  | none => mem

/-- `sbuffer_insert`: `NULL` buffer fails; node allocation (oracle
`allocOk`) fails with `SBUFFER_FAILURE`; otherwise the fresh node
(address `mem.length`, `next = NULL`, holding a copy of `*data`) is
linked at the tail, with both pointers set when the buffer was empty
(`tail == NULL`). -/
def sbuffer_insert (allocOk : Bool) :
    Option sbuffer_t → sensor_data_t → sbuffer_result × Option sbuffer_t
  | none, _ => (SBUFFER_FAILURE, none)
  | some buf, data =>
    if allocOk then
      let addr := buf.mem.length
      let node : sbuffer_node_t := ⟨none, data⟩
      match buf.tail with
      | none => (SBUFFER_SUCCESS, some ⟨buf.mem ++ [node], some addr, some addr⟩)
      | some t =>
          (SBUFFER_SUCCESS,
           some ⟨setNext buf.mem t addr ++ [node], buf.head, some addr⟩)
    else (SBUFFER_FAILURE, some buf)

/-- Outcome of one `sbuffer_remove` call: `ret result written buffer`
returns, where `written` is the value stored through the out-parameter
`data` (`none` = the out-parameter was not written); `blocks` is the
wait on the condition variable with the queue empty; `undef` is a
dangling-pointer dereference, unreachable under the representation
invariant. -/
inductive remove_outcome where
  | ret (r : sbuffer_result) (written : Option sensor_data_t) (buf : Option sbuffer_t)
  | blocks
  | undef
deriving DecidableEq, Repr

/-- `sbuffer_remove`: `NULL` buffer fails; an empty buffer blocks on
the condition variable; a sentinel head (`id == 0`) reports
`SBUFFER_NO_DATA` without touching the structure or the out-parameter;
otherwise the head record is copied out and the head node unlinked and
freed, with both pointers cleared when it was the only node
(`head == tail`). -/
def sbuffer_remove : Option sbuffer_t → remove_outcome
  | none => .ret SBUFFER_FAILURE none none
  | some buf =>
    match buf.head with
    | none => .blocks
    | some h =>
      match buf.mem.get? h with
      | none => .undef
      | some node =>
        if node.data.id = 0 then
          .ret SBUFFER_NO_DATA none (some buf)
        else
          let buf' : sbuffer_t :=
            if buf.head = buf.tail then ⟨buf.mem, none, none⟩
            else ⟨buf.mem, node.next, buf.tail⟩
          .ret SBUFFER_SUCCESS (some node.data) (some buf')

/-- The chain condition: consecutive addresses in `addrs` are linked by
`next` pointers and the last node's `next` is `NULL` (each node's
`next` equals the head of the remaining address list, `none` at the
end). -/
def isChain (mem : List sbuffer_node_t) : List Nat → Bool
  | [] => true
  | a :: rest =>
    (match mem.get? a with
     | some node => node.next == rest.head?
     | none => false) && isChain mem rest

/-- Representation invariant of the buffer: `addrs` lists the addresses
of the nodes currently in the queue, from head to tail; `head` points
at the first, `tail` at the last, the `next` pointers thread them in
order, and no address occurs twice. -/
def buf_inv (buf : sbuffer_t) (addrs : List Nat) : Prop :=
  buf.head = addrs.head? ∧ buf.tail = addrs.getLast? ∧
  isChain buf.mem addrs = true ∧ addrs.Nodup

instance (buf : sbuffer_t) (addrs : List Nat) : Decidable (buf_inv buf addrs) := by
  unfold buf_inv; infer_instance

/-- The record stored at address `a` (`default` off the heap; only used
at valid addresses). -/
def dataAt (mem : List sbuffer_node_t) (a : Nat) : sensor_data_t :=
  match mem.get? a with
  | some node => node.data
  | none => default

/-- Abstraction: a (possibly `NULL`) buffer represents the record
sequence `L`, head first. -/
def BufRep (b : Option sbuffer_t) (L : List sensor_data_t) : Prop :=
  ∃ buf addrs, b = some buf ∧ buf_inv buf addrs ∧
    addrs.map (dataAt buf.mem) = L

/-- Insert the records of `L` one at a time (allocation succeeding),
keeping the buffer state. -/
def insertAll (b : Option sbuffer_t) (L : List sensor_data_t) : Option sbuffer_t :=
  L.foldl (fun acc d => (sbuffer_insert true acc d).2) b

/-- Call `sbuffer_remove` up to `n` times, collecting the successfully
returned records and the final buffer state; stops early on any
non-success outcome. -/
def drainList : Option sbuffer_t → Nat → List sensor_data_t × Option sbuffer_t
  | b, 0 => ([], b)
  | b, n + 1 =>
    match sbuffer_remove b with
    | .ret SBUFFER_SUCCESS (some d) b' =>
        let p := drainList b' n
        (d :: p.1, p.2)
    | _ => ([], b)

/-- Call `sbuffer_remove` `n` times, keeping only the buffer state
(a returning call yields its new state; a blocked call is left at the
unchanged state). -/
def removeN : Option sbuffer_t → Nat → Option sbuffer_t
  | b, 0 => b
  | b, n + 1 =>
    match sbuffer_remove b with
    | .ret _ _ b' => removeN b' n
    | _ => b

/-- `NUM_THREADS`: one producer and two consumers. -/
def NUM_THREADS : Nat := 3

/-- The end-of-stream marker the producer enqueues:
`sensor_data_t end_signal = {0, 0.0, 0}`. -/
def end_signal : sensor_data_t := ⟨0, 0, 0⟩

/-- `producer_thread` after parsing its input: inserts every record read
from the stream, then inserts `end_signal` once per consumer
(`NUM_THREADS - 1` times), then exits.  The stream is modelled as the
list of records the `fread` loop yields before the first short read;
allocation is taken to succeed (a failed insert is logged and the
record dropped, which this run does not exercise). -/
def producer_run (stream : List sensor_data_t) (b : Option sbuffer_t) :
    Option sbuffer_t :=
  insertAll (insertAll b stream) (List.replicate (NUM_THREADS - 1) end_signal)

/-- What one iteration of the consumer loop does after its
`sbuffer_remove` call comes back. -/
inductive consumer_action where
  | exited
  | retried_after_error
  | processed (r : sensor_data_t)
deriving DecidableEq, Repr

/-- One iteration of `consumer_thread`'s loop: call `sbuffer_remove`
into `retrieved_data`; on `SBUFFER_FAILURE` log and `continue`; then
`break` when `retrieved_data.id == 0`; otherwise log the record and
loop.  `retrieved` is the current contents of the local
`retrieved_data` (stale from the previous iteration when the remove
does not write it).  `none` when the remove call does not return. -/
def consumer_step (b : Option sbuffer_t) (retrieved : sensor_data_t) :
    Option (consumer_action × sensor_data_t × Option sbuffer_t) :=
  match sbuffer_remove b with
  | .ret status written b' =>
      let retrieved' := match written with
        | some d => d
        | none => retrieved
      if status = SBUFFER_FAILURE then
        some (.retried_after_error, retrieved', b')
      else if retrieved'.id = 0 then
        some (.exited, retrieved', b')
      else
        some (.processed retrieved', retrieved', b')
  | _ => none

/-- An output `FILE`: `written` holds the durably flushed lines,
`buffered` the lines written but not yet flushed. -/
structure out_file where
  written : List String
  buffered : List String
deriving DecidableEq, Repr

/-- `fprintf` of one full line: appends to the stream buffer. -/
def fprintf_line (f : out_file) (s : String) : out_file :=
  ⟨f.written, f.buffered ++ [s]⟩

/-- `fflush`: makes every buffered line durable. -/
def fflush (f : out_file) : out_file :=
  ⟨f.written ++ f.buffered, []⟩

/-- Rendering of the sensor value by `%.2f`: the `double` is modelled
at hundredths precision (`v` counts hundredths), so the rendering is
exact with two digits after the decimal point. -/
def format_value_2dp (v : Int) : String :=
  (if v < 0 then "-" else "") ++
  toString (v.natAbs / 100) ++ "." ++
  (if v.natAbs % 100 < 10 then "0" else "") ++ toString (v.natAbs % 100)

/-- The line `fprintf(output_file, "%d,%.2f,%ld\n", id, value, ts)`
produces. -/
def log_line (sensor_id : Nat) (sensor_value : Int) (timestamp : Int) : String :=
  toString sensor_id ++ "," ++ format_value_2dp sensor_value ++ "," ++
  toString timestamp ++ "\n"

/-- `log_sensor_data`: `-1` on a `NULL` file pointer; otherwise one
`fprintf` of the record line (oracle `writeOk` for its success)
followed by one `fflush` (oracle `flushOk`), `-1` if either fails and
`0` otherwise. -/
def log_sensor_data (writeOk flushOk : Bool) (output_file : Option out_file)
    (sensor_id : Nat) (sensor_value : Int) (timestamp : Int) :
    Int × Option out_file :=
  match output_file with
  | none => (-1, none)
  | some f =>
    if writeOk then
      let f1 := fprintf_line f (log_line sensor_id sensor_value timestamp)
      if flushOk then (0, some (fflush f1)) else (-1, some f1)
    else (-1, some f)

/-- Control locations of `sbuffer_remove`'s wait loop:
`check` is the `while (buffer->head == NULL)` test (mutex held),
`wait` is inside `pthread_cond_wait` (mutex released),
`past_loop` is the first statement after the loop (mutex held). -/
inductive rm_loc where
  | check
  | wait
  | past_loop
deriving DecidableEq, Repr

/-- State of one consumer executing the wait loop, together with the
abstract queue contents. -/
structure rm_state where
  loc : rm_loc
  q : List sensor_data_t
deriving DecidableEq, Repr

/-- Steps of the wait loop of `sbuffer_remove`, interleaved with
inserts by the producer.  The loop test leaves the loop only on a
non-empty queue; `pthread_cond_wait` returning (signal or spurious
wake-up) re-enters the test; while the caller waits the mutex is
released, so an `insert` by another thread can append to the queue. -/
inductive rm_step : rm_state → rm_state → Prop where
  | enter_wait : rm_step ⟨.check, []⟩ ⟨.wait, []⟩
  | exit_loop (d : sensor_data_t) (q : List sensor_data_t) :
      rm_step ⟨.check, d :: q⟩ ⟨.past_loop, d :: q⟩
  | wake (q : List sensor_data_t) : rm_step ⟨.wait, q⟩ ⟨.check, q⟩
  | insert_evt (q : List sensor_data_t) (d : sensor_data_t) :
      rm_step ⟨.wait, q⟩ ⟨.wait, q ++ [d]⟩

/-- The same steps with the producer silent: no insert ever happens. -/
inductive rm_step_noins : rm_state → rm_state → Prop where
  | enter_wait : rm_step_noins ⟨.check, []⟩ ⟨.wait, []⟩
  | exit_loop (d : sensor_data_t) (q : List sensor_data_t) :
      rm_step_noins ⟨.check, d :: q⟩ ⟨.past_loop, d :: q⟩
  | wake (q : List sensor_data_t) : rm_step_noins ⟨.wait, q⟩ ⟨.check, q⟩

/-! ### Chain lemmas -/

lemma isChain_cons {mem : List sbuffer_node_t} {a : Nat} {rest : List Nat}
    (h : isChain mem (a :: rest) = true) :
    ∃ node, mem.get? a = some node ∧ node.next = rest.head? ∧
      isChain mem rest = true := by
  rw [isChain, Bool.and_eq_true] at h
  obtain ⟨h1, h2⟩ := h
  cases hg : mem.get? a with
  | none => rw [hg] at h1; cases h1
  | some node =>
    rw [hg] at h1
    exact ⟨node, rfl, by simpa using h1, h2⟩

lemma isChain_cons_of {mem : List sbuffer_node_t} {a : Nat} {rest : List Nat}
    {node : sbuffer_node_t} (hg : mem.get? a = some node)
    (hn : node.next = rest.head?) (hc : isChain mem rest = true) :
    isChain mem (a :: rest) = true := by
  rw [isChain, Bool.and_eq_true, hg]
  exact ⟨by simpa using hn, hc⟩

lemma chain_mem_lt {mem : List sbuffer_node_t} {addrs : List Nat}
    (h : isChain mem addrs = true) : ∀ a ∈ addrs, a < mem.length := by
  induction addrs with
  | nil => intro a ha; cases ha
  | cons b rest ih =>
    obtain ⟨node, hg, -, hc⟩ := isChain_cons h
    intro a ha
    rcases List.mem_cons.1 ha with rfl | ha
    · have := List.get?_eq_some.1 hg
      exact this.1
    · exact ih hc a ha

lemma length_setNext (mem : List sbuffer_node_t) (t a : Nat) :
    (setNext mem t a).length = mem.length := by
  unfold setNext
  cases mem.get? t <;> simp

lemma get?_setNext_ne (mem : List sbuffer_node_t) (t n : Nat) {a : Nat}
    (h : a ≠ t) : (setNext mem t n).get? a = mem.get? a := by
  unfold setNext
  cases mem.get? t with
  | none => rfl
  | some node => exact List.get?_set_ne _ _ (fun he => h he.symm)

lemma get?_setNext_eq {mem : List sbuffer_node_t} {t : Nat}
    {node : sbuffer_node_t} (hg : mem.get? t = some node) (n : Nat) :
    (setNext mem t n).get? t = some ⟨some n, node.data⟩ := by
  unfold setNext
  rw [hg]
  have ht : t < mem.length := (List.get?_eq_some.1 hg).1
  rw [List.get?_set_eq, hg]
  rfl

/-- Lookups below the old length, off the old tail, are unchanged by
the insert's heap update. -/
lemma get?_insert_heap_ne {mem : List sbuffer_node_t} {t n a : Nat}
    {nd : sbuffer_node_t} (ha : a < mem.length) (hat : a ≠ t) :
    (setNext mem t n ++ [nd]).get? a = mem.get? a := by
  rw [List.get?_append (by rw [length_setNext]; exact ha)]
  exact get?_setNext_ne mem t n hat

/-- Lookup of the freshly appended node. -/
lemma get?_insert_heap_new (mem : List sbuffer_node_t) (t n : Nat)
    (nd : sbuffer_node_t) :
    (setNext mem t n ++ [nd]).get? mem.length = some nd := by
  have := List.get?_concat_length (setNext mem t n) nd
  rwa [length_setNext] at this

/-- Lookup of the old tail node after the insert's heap update. -/
lemma get?_insert_heap_tail {mem : List sbuffer_node_t} {t : Nat}
    {node : sbuffer_node_t} (hg : mem.get? t = some node) (n : Nat)
    (nd : sbuffer_node_t) :
    (setNext mem t n ++ [nd]).get? t = some ⟨some n, node.data⟩ := by
  rw [List.get?_append (by rw [length_setNext]; exact (List.get?_eq_some.1 hg).1)]
  exact get?_setNext_eq hg n

/-- Appending a fresh node at the tail extends the chain. -/
lemma isChain_snoc {mem : List sbuffer_node_t} {t : Nat} (d : sensor_data_t) :
    ∀ {addrs : List Nat}, isChain mem addrs = true → addrs.Nodup →
      addrs.getLast? = some t →
      isChain (setNext mem t mem.length ++ [(⟨none, d⟩ : sbuffer_node_t)])
        (addrs ++ [mem.length]) = true := by
  intro addrs
  induction addrs with
  | nil => intro _ _ h; cases h
  | cons a rest ih =>
    intro hch hnd hlast
    obtain ⟨node, hg, hn, hc⟩ := isChain_cons hch
    cases rest with
    | nil =>
      have hta : t = a := by simpa using hlast.symm
      subst hta
      refine isChain_cons_of (get?_insert_heap_tail hg mem.length _) (by simp) ?_
      refine isChain_cons_of (get?_insert_heap_new mem t mem.length _) (by simp) ?_
      rfl
    | cons b rest' =>
      have hlast' : (b :: rest').getLast? = some t := by
        rwa [List.getLast?_cons_cons] at hlast
      have hat : a ≠ t := by
        have ht : t ∈ b :: rest' := List.mem_of_mem_getLast? hlast'
        have hna : a ∉ b :: rest' := (List.nodup_cons.1 hnd).1
        intro he; exact hna (he ▸ ht)
      have ha : a < mem.length := (List.get?_eq_some.1 hg).1
      have hrest := ih hc (List.nodup_cons.1 hnd).2 hlast'
      have hget : (setNext mem t mem.length ++
          [(⟨none, d⟩ : sbuffer_node_t)]).get? a = some node := by
        rw [get?_insert_heap_ne ha hat]; exact hg
      refine isChain_cons_of hget ?_ (by simpa using hrest)
      rw [hn]; simp

lemma dataAt_insert_heap {mem : List sbuffer_node_t} {t n a : Nat}
    {nd : sbuffer_node_t} (ha : a < mem.length) :
    dataAt (setNext mem t n ++ [nd]) a = dataAt mem a := by
  by_cases hat : a = t
  · subst hat
    cases hg : mem.get? a with
    | none =>
      have := List.get?_eq_none.1 hg
      omega
    | some node =>
      unfold dataAt
      rw [get?_insert_heap_tail hg n nd, hg]
  · unfold dataAt
    rw [get?_insert_heap_ne ha hat]

lemma dataAt_insert_heap_new (mem : List sbuffer_node_t) (t n : Nat)
    (nd : sbuffer_node_t) :
    dataAt (setNext mem t n ++ [nd]) mem.length = nd.data := by
  unfold dataAt
  rw [get?_insert_heap_new]

/-! ### Representation lemmas -/

lemma rep_init : BufRep (sbuffer_init true).2 [] :=
  ⟨⟨[], none, none⟩, [], rfl, by decide, rfl⟩

lemma rep_insert {b : Option sbuffer_t} {L : List sensor_data_t}
    (d : sensor_data_t) (h : BufRep b L) :
    (sbuffer_insert true b d).1 = SBUFFER_SUCCESS ∧
    BufRep (sbuffer_insert true b d).2 (L ++ [d]) := by
  obtain ⟨buf, addrs, rfl, ⟨hh, ht, hch, hnd⟩, hmap⟩ := h
  cases htail : buf.tail with
  | none =>
    have haddrs : addrs = [] :=
      List.getLast?_eq_none_iff.1 (by rw [← ht, htail])
    subst haddrs
    have hL : L = [] := hmap.symm
    subst hL
    simp only [sbuffer_insert, htail, if_true]
    refine ⟨trivial, ⟨_, [buf.mem.length], rfl, ?_, ?_⟩⟩
    · refine ⟨rfl, rfl, ?_, List.nodup_singleton _⟩
      exact isChain_cons_of (List.get?_concat_length buf.mem _) (by simp)
        rfl
    · simp only [List.map_cons, List.map_nil, List.nil_append]
      unfold dataAt
      rw [List.get?_concat_length]
  | some t =>
    have hlast : addrs.getLast? = some t := by rw [← ht, htail]
    have hne : addrs ≠ [] := by
      intro he; rw [he] at hlast; cases hlast
    have hlt := chain_mem_lt hch
    simp only [sbuffer_insert, htail, if_true]
    refine ⟨trivial, ⟨_, addrs ++ [buf.mem.length], rfl, ?_, ?_⟩⟩
    · refine ⟨?_, (List.getLast?_concat addrs).symm,
        isChain_snoc d hch hnd hlast, ?_⟩
      · cases addrs with
        | nil => exact absurd rfl hne
        | cons a rest => simpa using hh
      · rw [List.nodup_append]
        refine ⟨hnd, List.nodup_singleton _, ?_⟩
        intro a ha hb
        have : a = buf.mem.length := by simpa using hb
        have := hlt a ha
        omega
    · rw [List.map_append]
      simp only [List.map_cons, List.map_nil]
      rw [List.map_congr_left (fun a ha => dataAt_insert_heap (hlt a ha)),
        hmap, dataAt_insert_heap_new]

lemma rep_remove_sentinel {b : Option sbuffer_t} {d : sensor_data_t}
    {L : List sensor_data_t} (h : BufRep b (d :: L)) (hid : d.id = 0) :
    sbuffer_remove b = .ret SBUFFER_NO_DATA none b := by
  obtain ⟨buf, addrs, rfl, ⟨hh, ht, hch, hnd⟩, hmap⟩ := h
  cases addrs with
  | nil => cases hmap
  | cons a rest =>
    obtain ⟨node, hg, hn, hc⟩ := isChain_cons hch
    have hd : dataAt buf.mem a = d ∧ rest.map (dataAt buf.mem) = L := by
      rw [List.map_cons] at hmap
      exact ⟨(List.cons.injEq _ _ _ _ ▸ hmap).1, (List.cons.injEq _ _ _ _ ▸ hmap).2⟩
    have hda : node.data = d := by
      have := hd.1
      unfold dataAt at this
      rwa [hg] at this
    have hha : buf.head = some a := by simpa using hh
    simp only [sbuffer_remove, hha, hg, hda, hid, if_true]

lemma rep_remove_success {b : Option sbuffer_t} {d : sensor_data_t}
    {L : List sensor_data_t} (h : BufRep b (d :: L)) (hid : d.id ≠ 0) :
    ∃ b', sbuffer_remove b = .ret SBUFFER_SUCCESS (some d) b' ∧
      BufRep b' L := by
  obtain ⟨buf, addrs, rfl, ⟨hh, ht, hch, hnd⟩, hmap⟩ := h
  cases addrs with
  | nil => cases hmap
  | cons a rest =>
    obtain ⟨node, hg, hn, hc⟩ := isChain_cons hch
    rw [List.map_cons, List.cons.injEq] at hmap
    obtain ⟨hd1, hd2⟩ := hmap
    have hda : node.data = d := by
      unfold dataAt at hd1
      rwa [hg] at hd1
    have hha : buf.head = some a := by simpa using hh
    cases rest with
    | nil =>
      have hta : buf.tail = some a := by simpa using ht
      refine ⟨some ⟨buf.mem, none, none⟩, ?_, ?_⟩
      · simp only [sbuffer_remove, hha, hg, hda]
        rw [if_neg hid, if_pos (by rw [hta])]
      · exact ⟨_, [], rfl, by exact ⟨rfl, rfl, rfl, List.nodup_nil⟩,
          by simpa using hd2.symm ▸ hd2⟩
    | cons a2 rest' =>
      have hta : buf.tail = (a2 :: rest').getLast? := by
        rwa [List.getLast?_cons_cons] at ht
      have htne : buf.head ≠ buf.tail := by
        rw [hha, hta]
        have htmem : ∀ x, (a2 :: rest').getLast? = some x → x ∈ a2 :: rest' :=
          fun x hx => List.mem_of_mem_getLast? hx
        intro he
        have hax : a ∈ a2 :: rest' := htmem a he.symm
        exact (List.nodup_cons.1 hnd).1 hax
      refine ⟨some ⟨buf.mem, node.next, buf.tail⟩, ?_, ?_⟩
      · simp only [sbuffer_remove, hha, hg, hda]
        rw [if_neg hid, if_neg (by rw [← hha]; exact htne)]
      · exact ⟨_, a2 :: rest', rfl, ⟨by simpa using hn, hta, hc,
          (List.nodup_cons.1 hnd).2⟩, hd2⟩

lemma rep_insertAll :
    ∀ {L : List sensor_data_t} {b : Option sbuffer_t} {L0 : List sensor_data_t},
      BufRep b L0 → BufRep (insertAll b L) (L0 ++ L) := by
  intro L
  induction L with
  | nil => intro b L0 h; simpa [insertAll] using h
  | cons d L' ih =>
    intro b L0 h
    have h1 := (rep_insert d h).2
    have h2 := ih h1
    simpa [insertAll, List.foldl_cons] using h2

lemma buf_inv_nullIff {buf : sbuffer_t} {addrs : List Nat}
    (h : buf_inv buf addrs) : buf.head = none ↔ buf.tail = none := by
  obtain ⟨hh, ht, -, -⟩ := h
  rw [hh, ht]
  cases addrs with
  | nil => simp
  | cons a rest =>
    simp [List.getLast?_eq_none_iff]

lemma rep_drain :
    ∀ {L : List sensor_data_t} {b : Option sbuffer_t} {R : List sensor_data_t},
      BufRep b (L ++ R) → (∀ d ∈ L, d.id ≠ 0) →
      (drainList b L.length).1 = L ∧ BufRep (drainList b L.length).2 R := by
  intro L
  induction L with
  | nil => intro b R h _; exact ⟨rfl, h⟩
  | cons d L' ih =>
    intro b R h hid
    obtain ⟨b', hrm, hrep⟩ :=
      rep_remove_success (L := L' ++ R) h (hid d (List.mem_cons_self d L'))
    have ihh := ih hrep (fun x hx => hid x (List.mem_cons_of_mem d hx))
    constructor
    · show (drainList b (L'.length + 1)).1 = d :: L'
      simp only [drainList, hrm]
      rw [ihh.1]
    · show BufRep (drainList b (L'.length + 1)).2 R
      simp only [drainList, hrm]
      exact ihh.2

lemma noins_inv {s : rm_state}
    (h : Relation.ReflTransGen rm_step_noins ⟨.check, []⟩ s) :
    s = ⟨.check, []⟩ ∨ s = ⟨.wait, []⟩ := by
  induction h with
  | refl => exact Or.inl rfl
  | tail _ hstep ih =>
    rcases ih with rfl | rfl
    · cases hstep
      · exact Or.inr rfl
    · cases hstep
      · exact Or.inl rfl

/-! ### Claims -/

/-- C1: records inserted one at a time via `sbuffer_insert` with no
interleaved operations are returned by `sbuffer_remove` in insertion
order (FIFO): the i-th successful remove returns the i-th inserted
record.  The inserted records are data records (`id ≠ 0`; a Sentinel
is by the spec not a record of the stream). -/
theorem C1_fifo_order (L : List sensor_data_t) (hL : ∀ d ∈ L, d.id ≠ 0) :
    (drainList (insertAll (sbuffer_init true).2 L) L.length).1 = L := by
  have h := rep_insertAll (L := L) rep_init
  have h' : BufRep (insertAll (sbuffer_init true).2 L) (L ++ []) := by
    simpa using h
  exact (rep_drain h' hL).1

theorem C1_fifo_order_witness :
    (drainList (insertAll (sbuffer_init true).2
        [⟨1, 1050, 100⟩, ⟨2, 2050, 200⟩]) 2).1 =
      [⟨1, 1050, 100⟩, ⟨2, 2050, 200⟩] :=
  C1_fifo_order [⟨1, 1050, 100⟩, ⟨2, 2050, 200⟩] (by decide)

/-- C3: when the head record is the Sentinel (`id == 0`),
`sbuffer_remove` returns `SBUFFER_NO_DATA` and leaves the buffer
completely unchanged, so any number of repeated remove calls return
`SBUFFER_NO_DATA` and preserve the state. -/
theorem C3_sentinel_idempotent (buf : sbuffer_t) (h : Nat)
    (node : sbuffer_node_t) (hh : buf.head = some h)
    (hg : buf.mem.get? h = some node) (hid : node.data.id = 0) :
    sbuffer_remove (some buf) = .ret SBUFFER_NO_DATA none (some buf) ∧
    ∀ n, removeN (some buf) n = some buf := by
  have h1 : sbuffer_remove (some buf) = .ret SBUFFER_NO_DATA none (some buf) := by
    simp only [sbuffer_remove, hh, hg]
    rw [if_pos hid]
  refine ⟨h1, ?_⟩
  intro n
  induction n with
  | zero => rfl
  | succ n ih =>
    simp only [removeN, h1]
    exact ih

theorem C3_sentinel_idempotent_witness :
    (sbuffer_remove (some ⟨[⟨none, ⟨0, 0, 0⟩⟩], some 0, some 0⟩) =
      .ret SBUFFER_NO_DATA none
        (some ⟨[⟨none, ⟨0, 0, 0⟩⟩], some 0, some 0⟩)) ∧
    ∀ n, removeN (some ⟨[⟨none, ⟨0, 0, 0⟩⟩], some 0, some 0⟩) n =
      some ⟨[⟨none, ⟨0, 0, 0⟩⟩], some 0, some 0⟩ :=
  C3_sentinel_idempotent ⟨[⟨none, ⟨0, 0, 0⟩⟩], some 0, some 0⟩ 0
    ⟨none, ⟨0, 0, 0⟩⟩ rfl rfl rfl

/-- C4 (counterexample): the two failure causes of `sbuffer_insert` —
allocation failure on a valid buffer, and a `NULL` buffer handle —
return the very same value `SBUFFER_FAILURE`, so they are not
distinguishable by the returned value. -/
theorem C4_failures_not_distinguishable :
    (sbuffer_insert false (some ⟨[], none, none⟩) ⟨1, 1050, 100⟩).1 =
      (sbuffer_insert true none ⟨1, 1050, 100⟩).1 ∧
    (sbuffer_insert false (some ⟨[], none, none⟩) ⟨1, 1050, 100⟩).1 =
      SBUFFER_FAILURE := by
  constructor <;> rfl

/-- C4 (amended): `sbuffer_insert` succeeds for every record and every
valid buffer whenever allocation succeeds, and fails exactly when
allocation fails or the buffer handle is `NULL`; both failure causes
are signalled by the same value `SBUFFER_FAILURE`. -/
theorem C4_insert_result (allocOk : Bool) (b : Option sbuffer_t)
    (d : sensor_data_t) :
    ((sbuffer_insert allocOk b d).1 = SBUFFER_SUCCESS ↔
      (allocOk = true ∧ b ≠ none)) ∧
    ((sbuffer_insert allocOk b d).1 = SBUFFER_FAILURE ↔
      (allocOk = false ∨ b = none)) := by
  cases b with
  | none => cases allocOk <;> simp [sbuffer_insert]
  | some buf =>
    cases allocOk with
    | false => simp [sbuffer_insert]
    | true =>
      cases htail : buf.tail <;> simp [sbuffer_insert, htail]

/-- C5: a producer whose input stream is exhausted after the records of
`stream` enqueues exactly one Sentinel (`id == 0`) per consumer thread
— `NUM_THREADS - 1 = 2` of them — after all the data records, and then
terminates. -/
theorem C5_producer_two_sentinels (stream : List sensor_data_t)
    (hs : ∀ d ∈ stream, d.id ≠ 0) :
    BufRep (producer_run stream (sbuffer_init true).2)
      (stream ++ List.replicate (NUM_THREADS - 1) end_signal) ∧
    (stream ++ List.replicate (NUM_THREADS - 1) end_signal).countP
      (fun d => d.id == 0) = 2 ∧
    NUM_THREADS - 1 = 2 := by
  refine ⟨?_, ?_, rfl⟩
  · have h1 := rep_insertAll (L := stream) rep_init
    have h1' : BufRep (insertAll (sbuffer_init true).2 stream) stream := by
      simpa using h1
    have h2 := rep_insertAll (L := List.replicate (NUM_THREADS - 1) end_signal) h1'
    simpa [producer_run] using h2
  · rw [List.countP_append]
    have hz : stream.countP (fun d => d.id == 0) = 0 :=
      List.countP_eq_zero.mpr (fun d hd => by simp [hs d hd])
    rw [hz]
    decide

theorem C5_producer_two_sentinels_witness :
    BufRep (producer_run [⟨1, 1050, 100⟩, ⟨2, 2050, 200⟩] (sbuffer_init true).2)
      ([⟨1, 1050, 100⟩, ⟨2, 2050, 200⟩] ++
        List.replicate (NUM_THREADS - 1) end_signal) ∧
    (([⟨1, 1050, 100⟩, ⟨2, 2050, 200⟩] : List sensor_data_t) ++
        List.replicate (NUM_THREADS - 1) end_signal).countP
      (fun d => d.id == 0) = 2 ∧
    NUM_THREADS - 1 = 2 :=
  C5_producer_two_sentinels [⟨1, 1050, 100⟩, ⟨2, 2050, 200⟩] (by decide)

/-- C6: in the single-consumer setting, after inserting the data
records `D` (no sentinel ids) followed by the sentinels `S`, the first
`D.length` removes return exactly `D` — each inserted data record is
returned by exactly one successful remove, none lost, none duplicated
— and the next remove hits the sentinel and reports `SBUFFER_NO_DATA`
rather than returning further data. -/
theorem C6_exactly_once (D S : List sensor_data_t)
    (hD : ∀ d ∈ D, d.id ≠ 0) (hS : ∀ s ∈ S, s.id = 0) (hSne : S ≠ []) :
    (drainList (insertAll (sbuffer_init true).2 (D ++ S)) D.length).1 = D ∧
    (∀ r, ((drainList (insertAll (sbuffer_init true).2 (D ++ S))
        D.length).1).count r = D.count r) ∧
    sbuffer_remove
        (drainList (insertAll (sbuffer_init true).2 (D ++ S)) D.length).2 =
      .ret SBUFFER_NO_DATA none
        (drainList (insertAll (sbuffer_init true).2 (D ++ S)) D.length).2 := by
  have h := rep_insertAll (L := D ++ S) rep_init
  have h' : BufRep (insertAll (sbuffer_init true).2 (D ++ S)) (D ++ S) := by
    simpa using h
  obtain ⟨h1, h2⟩ := rep_drain h' hD
  refine ⟨h1, fun r => by rw [h1], ?_⟩
  cases S with
  | nil => exact absurd rfl hSne
  | cons s S' => exact rep_remove_sentinel h2 (hS s (List.mem_cons_self s S'))

theorem C6_exactly_once_witness :
    (drainList (insertAll (sbuffer_init true).2
        ([⟨1, 1050, 100⟩, ⟨2, 2050, 200⟩] ++ [⟨0, 0, 0⟩, ⟨0, 0, 0⟩])) 2).1 =
      [⟨1, 1050, 100⟩, ⟨2, 2050, 200⟩] ∧
    (∀ r, ((drainList (insertAll (sbuffer_init true).2
        ([⟨1, 1050, 100⟩, ⟨2, 2050, 200⟩] ++ [⟨0, 0, 0⟩, ⟨0, 0, 0⟩])) 2).1).count r =
      ([⟨1, 1050, 100⟩, ⟨2, 2050, 200⟩] : List sensor_data_t).count r) ∧
    sbuffer_remove
        (drainList (insertAll (sbuffer_init true).2
          ([⟨1, 1050, 100⟩, ⟨2, 2050, 200⟩] ++ [⟨0, 0, 0⟩, ⟨0, 0, 0⟩])) 2).2 =
      .ret SBUFFER_NO_DATA none
        (drainList (insertAll (sbuffer_init true).2
          ([⟨1, 1050, 100⟩, ⟨2, 2050, 200⟩] ++ [⟨0, 0, 0⟩, ⟨0, 0, 0⟩])) 2).2 :=
  C6_exactly_once [⟨1, 1050, 100⟩, ⟨2, 2050, 200⟩] [⟨0, 0, 0⟩, ⟨0, 0, 0⟩]
    (by decide) (by decide) (by decide)

/-- C7: `log_sensor_data` appends exactly one line
`id,value(2 decimal places),timestamp\n` and flushes it immediately,
returning `0`; it returns `-1` when the file pointer is `NULL`, when
the write fails (nothing reaches the buffer), or when the flush fails
(the line stays buffered, not yet durable). -/
theorem C7_log_format_flush (writeOk flushOk : Bool) (f : out_file)
    (sid : Nat) (v ts : Int) :
    log_sensor_data writeOk flushOk none sid v ts = (-1, none) ∧
    log_sensor_data true true (some f) sid v ts =
      (0, some ⟨f.written ++ (f.buffered ++ [log_line sid v ts]), []⟩) ∧
    log_sensor_data false flushOk (some f) sid v ts = (-1, some f) ∧
    log_sensor_data true false (some f) sid v ts =
      (-1, some ⟨f.written, f.buffered ++ [log_line sid v ts]⟩) ∧
    log_line sid v ts =
      toString sid ++ "," ++ format_value_2dp v ++ "," ++ toString ts ++ "\n" := by
  exact ⟨rfl, rfl, rfl, rfl, rfl⟩

/-- C9: whenever `sbuffer_remove` returns a non-success result
(`SBUFFER_FAILURE` for a `NULL` buffer, or `SBUFFER_NO_DATA` when the
head is a sentinel), it does not write through the out-parameter
`data`: the written value is `none`, so the caller's memory is left as
it was. -/
theorem C9_no_write_unless_success (b : Option sbuffer_t)
    (r : sbuffer_result) (w : Option sensor_data_t) (b' : Option sbuffer_t)
    (hrm : sbuffer_remove b = .ret r w b') (hr : r ≠ SBUFFER_SUCCESS) :
    w = none := by
  cases b with
  | none =>
    simp only [sbuffer_remove, remove_outcome.ret.injEq] at hrm
    exact hrm.2.1.symm
  | some buf =>
    cases hhd : buf.head with
    | none =>
      simp only [sbuffer_remove, hhd] at hrm
      cases hrm
    | some hAddr =>
      cases hg : buf.mem.get? hAddr with
      | none =>
        simp only [sbuffer_remove, hhd, hg] at hrm
        cases hrm
      | some node =>
        by_cases hid : node.data.id = 0
        · simp only [sbuffer_remove, hhd, hg, if_pos hid,
            remove_outcome.ret.injEq] at hrm
          exact hrm.2.1.symm
        · simp only [sbuffer_remove, hhd, hg, if_neg hid,
            remove_outcome.ret.injEq] at hrm
          exact absurd hrm.1.symm hr

theorem C9_no_write_unless_success_witness : (none : Option sensor_data_t) = none :=
  C9_no_write_unless_success none SBUFFER_FAILURE none none rfl (by decide)

/-- C10: every queue operation preserves `head == NULL ⇔ tail == NULL`:
`sbuffer_init` establishes it (both `NULL`); `sbuffer_insert` preserves
it, setting both pointers to the new node when the buffer was empty;
`sbuffer_remove` preserves it under the representation invariant,
clearing both pointers when it unlinks the last node; and the
representation invariant itself entails the iff. -/
theorem C10_head_tail_null_iff :
    (∀ b : sbuffer_t, (sbuffer_init true).2 = some b →
       b.head = none ∧ b.tail = none) ∧
    (∀ (b : sbuffer_t) (d : sensor_data_t) (b' : sbuffer_t),
       (b.head = none ↔ b.tail = none) →
       (sbuffer_insert true (some b) d).2 = some b' →
       (b'.head = none ↔ b'.tail = none)) ∧
    (∀ (b : sbuffer_t) (addrs : List Nat) (r : sbuffer_result)
       (w : Option sensor_data_t) (b' : sbuffer_t),
       buf_inv b addrs →
       sbuffer_remove (some b) = .ret r w (some b') →
       (b'.head = none ↔ b'.tail = none)) ∧
    (∀ (b : sbuffer_t) (d : sensor_data_t) (b' : sbuffer_t),
       b.tail = none → (sbuffer_insert true (some b) d).2 = some b' →
       b'.head = some b.mem.length ∧ b'.tail = some b.mem.length) ∧
    (∀ (b : sbuffer_t) (a : Nat) (w : Option sensor_data_t) (b' : sbuffer_t),
       buf_inv b [a] →
       sbuffer_remove (some b) = .ret SBUFFER_SUCCESS w (some b') →
       b'.head = none ∧ b'.tail = none) ∧
    (∀ (b : sbuffer_t) (addrs : List Nat), buf_inv b addrs →
       (b.head = none ↔ b.tail = none)) := by
  refine ⟨?_, ?_, ?_, ?_, ?_, fun b addrs h => buf_inv_nullIff h⟩
  · intro b hb
    simp only [sbuffer_init, if_true, Option.some.injEq] at hb
    rw [← hb]
    exact ⟨rfl, rfl⟩
  · intro b d b' hiff hins
    cases htail : b.tail with
    | none =>
      simp only [sbuffer_insert, htail, if_true, Option.some.injEq] at hins
      rw [← hins]
    | some t =>
      simp only [sbuffer_insert, htail, if_true, Option.some.injEq] at hins
      rw [← hins]
      have hhd : b.head ≠ none := by
        intro hn
        rw [hiff.mp hn] at htail
        cases htail
      simp only []
      constructor
      · intro hn; exact absurd hn hhd
      · intro hn; cases hn
  · intro b addrs r w b' hinv hrm
    cases addrs with
    | nil =>
      have hhd : b.head = none := by simpa using hinv.1
      simp only [sbuffer_remove, hhd] at hrm
      cases hrm
    | cons a rest =>
      have hbr : BufRep (some b)
          (dataAt b.mem a :: rest.map (dataAt b.mem)) :=
        ⟨b, a :: rest, rfl, hinv, by simp⟩
      by_cases hid : (dataAt b.mem a).id = 0
      · have := rep_remove_sentinel hbr hid
        rw [this, remove_outcome.ret.injEq] at hrm
        obtain ⟨-, -, hb⟩ := hrm
        have : b' = b := by
          injection hb.symm
        rw [this]
        exact buf_inv_nullIff hinv
      · obtain ⟨b'', hrm', hrep⟩ := rep_remove_success hbr hid
        rw [hrm', remove_outcome.ret.injEq] at hrm
        obtain ⟨-, -, hb⟩ := hrm
        obtain ⟨bb, addrs', hbb, hinv', -⟩ := hrep
        have hb' : b' = bb := by
          rw [hbb] at hb
          injection hb.symm
        rw [hb']
        exact buf_inv_nullIff hinv'
  · intro b d b' htail hins
    simp only [sbuffer_insert, htail, if_true, Option.some.injEq] at hins
    rw [← hins]
    exact ⟨rfl, rfl⟩
  · intro b a w b' hinv hrm
    have hbr : BufRep (some b) [dataAt b.mem a] := ⟨b, [a], rfl, hinv, by simp⟩
    by_cases hid : (dataAt b.mem a).id = 0
    · rw [rep_remove_sentinel hbr hid, remove_outcome.ret.injEq] at hrm
      cases hrm.1
    · obtain ⟨b'', hrm', hrep⟩ := rep_remove_success hbr hid
      rw [hrm', remove_outcome.ret.injEq] at hrm
      obtain ⟨-, -, hb⟩ := hrm
      obtain ⟨bb, addrs', hbb, hinv', hmap'⟩ := hrep
      have haddrs : addrs' = [] := List.map_eq_nil.1 hmap'
      subst haddrs
      have hb' : b' = bb := by
        rw [hbb] at hb
        injection hb.symm
      rw [hb']
      exact ⟨by simpa using hinv'.1, by simpa using hinv'.2.1⟩

theorem C10_head_tail_null_iff_witness :
    ((⟨[], none, none⟩ : sbuffer_t).head = none ∧
      (⟨[], none, none⟩ : sbuffer_t).tail = none) ∧
    ((⟨[⟨none, ⟨1, 1050, 100⟩⟩], some 0, some 0⟩ : sbuffer_t).head = none ↔
      (⟨[⟨none, ⟨1, 1050, 100⟩⟩], some 0, some 0⟩ : sbuffer_t).tail = none) ∧
    ((⟨[⟨none, ⟨1, 1050, 100⟩⟩], none, none⟩ : sbuffer_t).head = none ↔
      (⟨[⟨none, ⟨1, 1050, 100⟩⟩], none, none⟩ : sbuffer_t).tail = none) ∧
    ((⟨[⟨none, ⟨1, 1050, 100⟩⟩], some 0, some 0⟩ : sbuffer_t).head = some 0 ∧
      (⟨[⟨none, ⟨1, 1050, 100⟩⟩], some 0, some 0⟩ : sbuffer_t).tail = some 0) ∧
    ((⟨[⟨none, ⟨1, 1050, 100⟩⟩], none, none⟩ : sbuffer_t).head = none ∧
      (⟨[⟨none, ⟨1, 1050, 100⟩⟩], none, none⟩ : sbuffer_t).tail = none) ∧
    ((⟨[], none, none⟩ : sbuffer_t).head = none ↔
      (⟨[], none, none⟩ : sbuffer_t).tail = none) :=
  ⟨C10_head_tail_null_iff.1 ⟨[], none, none⟩ rfl,
   C10_head_tail_null_iff.2.1 ⟨[], none, none⟩ ⟨1, 1050, 100⟩
     ⟨[⟨none, ⟨1, 1050, 100⟩⟩], some 0, some 0⟩ (by decide) rfl,
   C10_head_tail_null_iff.2.2.1 ⟨[⟨none, ⟨1, 1050, 100⟩⟩], some 0, some 0⟩
     [0] SBUFFER_SUCCESS (some ⟨1, 1050, 100⟩)
     ⟨[⟨none, ⟨1, 1050, 100⟩⟩], none, none⟩ (by decide) (by decide),
   C10_head_tail_null_iff.2.2.2.1 ⟨[], none, none⟩ ⟨1, 1050, 100⟩
     ⟨[⟨none, ⟨1, 1050, 100⟩⟩], some 0, some 0⟩ rfl rfl,
   C10_head_tail_null_iff.2.2.2.2.1 ⟨[⟨none, ⟨1, 1050, 100⟩⟩], some 0, some 0⟩
     0 (some ⟨1, 1050, 100⟩) ⟨[⟨none, ⟨1, 1050, 100⟩⟩], none, none⟩
     (by decide) (by decide),
   C10_head_tail_null_iff.2.2.2.2.2 ⟨[], none, none⟩ [] (by decide)⟩

/-- C8: a `sbuffer_remove` call on an empty queue does not proceed past
the wait loop unless an insert occurs (no error return, no exit on a
spurious wake-up: `pthread_cond_wait` returning re-enters the
`while (buffer->head == NULL)` test), and once an insert makes the
queue non-empty the call can proceed past the loop. -/
theorem C8_blocking_until_insert :
    (∀ s : rm_state,
       Relation.ReflTransGen rm_step_noins ⟨.check, []⟩ s →
       s.loc ≠ .past_loop) ∧
    (∀ (q : List sensor_data_t) (s : rm_state),
       rm_step ⟨.wait, q⟩ s → s.loc ≠ .past_loop) ∧
    (∀ d : sensor_data_t,
       Relation.ReflTransGen rm_step ⟨.check, []⟩ ⟨.past_loop, [d]⟩) := by
  refine ⟨?_, ?_, ?_⟩
  · intro s hreach
    rcases noins_inv hreach with rfl | rfl
    · intro h; cases h
    · intro h; cases h
  · intro q s hstep
    cases hstep <;> intro h <;> cases h
  · intro d
    have h1 : rm_step ⟨.check, []⟩ ⟨.wait, []⟩ := rm_step.enter_wait
    have h2 : rm_step ⟨.wait, []⟩ ⟨.wait, [d]⟩ := rm_step.insert_evt [] d
    have h3 : rm_step ⟨.wait, [d]⟩ ⟨.check, [d]⟩ := rm_step.wake [d]
    have h4 : rm_step ⟨.check, [d]⟩ ⟨.past_loop, [d]⟩ := rm_step.exit_loop d []
    exact Relation.ReflTransGen.head h1 (Relation.ReflTransGen.head h2
      (Relation.ReflTransGen.head h3 (Relation.ReflTransGen.single h4)))

theorem C8_blocking_until_insert_witness :
    (rm_state.mk .wait []).loc ≠ rm_loc.past_loop ∧
    (rm_state.mk .check []).loc ≠ rm_loc.past_loop ∧
    Relation.ReflTransGen rm_step ⟨.check, []⟩
      ⟨.past_loop, [⟨1, 1050, 100⟩]⟩ :=
  ⟨C8_blocking_until_insert.1 ⟨.wait, []⟩
     (Relation.ReflTransGen.single rm_step_noins.enter_wait),
   C8_blocking_until_insert.2.1 [] ⟨.check, []⟩ (rm_step.wake []),
   C8_blocking_until_insert.2.2 ⟨1, 1050, 100⟩⟩

/-- C2 (code evaluated at the failing input): with the head of the
buffer a Sentinel and the consumer's local `retrieved_data` still
holding the previously logged record `{5, 10.50, 100}`,
`sbuffer_remove` reports `SBUFFER_NO_DATA` (EndOfStream) but the
consumer's loop iteration does not exit: it re-processes the stale
record and loops, because the exit test reads `retrieved_data.id`,
which the `SBUFFER_NO_DATA` return left untouched. -/
theorem C2_consumer_misses_end_of_stream :
    sbuffer_remove (some ⟨[⟨none, ⟨0, 0, 0⟩⟩], some 0, some 0⟩) =
      .ret SBUFFER_NO_DATA none
        (some ⟨[⟨none, ⟨0, 0, 0⟩⟩], some 0, some 0⟩) ∧
    consumer_step (some ⟨[⟨none, ⟨0, 0, 0⟩⟩], some 0, some 0⟩)
        ⟨5, 1050, 100⟩ =
      some (.processed ⟨5, 1050, 100⟩, ⟨5, 1050, 100⟩,
        some ⟨[⟨none, ⟨0, 0, 0⟩⟩], some 0, some 0⟩) ∧
    (consumer_action.processed ⟨5, 1050, 100⟩) ≠ consumer_action.exited := by
  refine ⟨rfl, rfl, by decide⟩
